import Mathlib

/-!
# Route-O-Matic: verification of the route construction and conflict engine

A shallow embedding, in Lean 4, of the core scheduling code of the
Route-O-Matic repository (conflict detection, smart buffer sizing, reordering
generation, route building, solution scoring and the conflict-resolution
orchestrator), together with theorems settling the frozen claims about it.

Modelling conventions, used consistently below:

* Clock times of day are modelled as integer minutes since midnight.  The
  source stores them as `HH:MM` strings and converts with `timeToMinutes` and
  `minutesToTime`; those two conversions are exact mutual inverses on the
  values the code produces (`minutesToTime` does not wrap at 24:00, it simply
  prints `hours = n / 60`), so working directly in minutes is observationally
  identical.
* JavaScript numbers are modelled as `ℚ` where fractional values can arise
  (buffers, scores, distances) and as `ℤ` where the code only ever holds
  integers (minutes, durations).  `Math.round` is `jsRound` below (round half
  towards positive infinity), `Math.floor` on nonnegative values is `Int.floor`.
* `haversineDistance` computes a great-circle distance with `sin`, `cos`,
  `atan2` and `sqrt`; it is a pure real-valued function of the four
  coordinates.  It is kept as an explicit function parameter `hav` (kilometres)
  because every claim depends only on comparisons of its value against
  thresholds, never on the trigonometric formula itself.
* The external distance-matrix collaborator (`getDistanceMatrix`, asynchronous
  I/O in the source) is modelled as a deterministic oracle
  `dm : ℚ × ℚ → ℚ × ℚ → Option DistanceResult`; `none` models the
  empty-result case, for which every call site falls back to the geodesic
  estimate.  (A thrown lookup error aborts the whole optimisation in the
  source and yields the `success = false` route; the claims below concern the
  normally-returning paths.)
* Appointment `address`, `formattedAddress` and `rowNumber` fields are carried
  opaquely by the source functions embedded here and never read; they are
  omitted from the record.
* Human-readable message strings (feasibility violations, reasons) are
  modelled as structured values carrying the same decision data, since no
  claim depends on the message text.
-/

namespace RouteOMatic

/-- JavaScript `Math.round`: round half towards positive infinity. -/
def jsRound (q : ℚ) : ℤ := ⌊q + 1/2⌋

/-- Round to one decimal place: JS `Math.round(x * 10) / 10`. -/
def round1 (q : ℚ) : ℚ := (jsRound (q * 10) : ℚ) / 10

/-- Round to two decimal places: JS `Math.round(x * 100) / 100`. -/
def round2 (q : ℚ) : ℚ := (jsRound (q * 100) : ℚ) / 100

/-- The `flexibility` field of an appointment (source type
`'flexible' | 'inflexible'`). -/
inductive Flexibility where
  | flexible
  | inflexible
deriving DecidableEq, Repr

/-- A geocoded appointment (source `GeocodedAppointment`, which extends
`Appointment` with coordinates).  `startTime` is in minutes since midnight,
`none` meaning a flexible "no preferred time" entry (source `null`). -/
structure GeocodedAppointment where
  id : String
  appName : String
  visitDurationMinutes : ℤ
  startTime : Option ℤ
  date : String
  flexibility : Flexibility
  latitude : ℚ
  longitude : ℚ
deriving DecidableEq, Repr

/-- Source constant `GRACE_PERIOD_MINUTES = 15`. -/
def GRACE_PERIOD_MINUTES : ℤ := 15

/-- `timeDifference` from `validators.ts`: absolute difference of two times in
minutes. -/
def timeDifference (time1 time2 : ℤ) : ℤ := |time1 - time2|

/-- Arrival status of a stop (source `'on_time' | 'early' | 'late'`). -/
inductive ArrivalStatus where
  | on_time
  | early
  | late
deriving DecidableEq, Repr

/-- `getArrivalStatus` from `validators.ts`. -/
def getArrivalStatus (arrivalTime preferredTime gracePeriod : ℤ) : ArrivalStatus :=
  if timeDifference arrivalTime preferredTime ≤ gracePeriod then ArrivalStatus.on_time
  else if arrivalTime < preferredTime then ArrivalStatus.early
  else ArrivalStatus.late

/-- `isInflexible` from `validators.ts`. -/
def isInflexible (apt : GeocodedAppointment) : Bool :=
  decide (apt.flexibility = Flexibility.inflexible)

/-- `isFlexible` from `validators.ts`. -/
def isFlexible (apt : GeocodedAppointment) : Bool :=
  decide (apt.flexibility = Flexibility.flexible)

/-- `BufferConfiguration` from `types.ts`. -/
structure BufferConfiguration where
  baseBufferMinutes : ℚ
  minimumBufferMinutes : ℚ
  maximumBufferMinutes : ℚ
  flexibleFactor : ℚ
  locationFactor : ℚ
  durationFactor : ℚ
deriving DecidableEq, Repr

/-- `DEFAULT_BUFFER_CONFIG` from `types.ts`. -/
def DEFAULT_BUFFER_CONFIG : BufferConfiguration :=
  { baseBufferMinutes := 45
    minimumBufferMinutes := 15
    maximumBufferMinutes := 120
    flexibleFactor := 0.8
    locationFactor := 1
    durationFactor := 1 }

/-- Conflict severity (source `'critical' | 'major' | 'minor'`). -/
inductive Severity where
  | critical
  | major
  | minor
deriving DecidableEq, Repr

/-- `SchedulingConflict` from `types.ts`. -/
structure SchedulingConflict where
  appointments : GeocodedAppointment × GeocodedAppointment
  gapMinutes : ℤ
  requiredMinutes : ℤ
  severity : Severity
deriving DecidableEq, Repr

/-- `calculateSmartBuffer` from `simulation/utils.ts`.  `hav` abstracts
`haversineDistance lat1 lng1 lat2 lng2` (kilometres).  The coordinate guard
`apt1.latitude && apt1.longitude && apt2.latitude && apt2.longitude` is a
JavaScript truthiness test on numbers, hence a nonzero test. -/
def calculateSmartBuffer (hav : ℚ → ℚ → ℚ → ℚ → ℚ)
    (apt1 apt2 : GeocodedAppointment) (config : BufferConfiguration) : ℤ :=
  let buffer0 : ℚ := config.baseBufferMinutes
  let buffer1 : ℚ :=
    if ¬ (isInflexible apt1 = true) ∧ ¬ (isInflexible apt2 = true) then
      buffer0 * config.flexibleFactor
    else buffer0
  let avgDuration : ℚ :=
    (((apt1.visitDurationMinutes : ℚ)) + ((apt2.visitDurationMinutes : ℚ))) / 2
  let buffer2 : ℚ :=
    if avgDuration > 60 then buffer1 * 1.2
    else if avgDuration < 30 then buffer1 * 0.9
    else buffer1
  let buffer3 : ℚ :=
    if apt1.latitude ≠ 0 ∧ apt1.longitude ≠ 0 ∧ apt2.latitude ≠ 0 ∧ apt2.longitude ≠ 0 then
      let distance := hav apt1.latitude apt1.longitude apt2.latitude apt2.longitude
      if distance > 10 then buffer2 + 15
      else if distance > 50 then buffer2 + 30
      else buffer2
    else buffer2
  let clamped : ℚ :=
    max config.minimumBufferMinutes (min config.maximumBufferMinutes buffer3)
  jsRound clamped

/-- Body of `detectConflict` after the chronological destructuring
`const [first, second, firstTime, secondTime] = ...`. -/
def detectConflictOrdered (first second : GeocodedAppointment)
    (firstTime secondTime : ℤ) : Option SchedulingConflict :=
  let gapMinutes := secondTime - firstTime
  let requiredMinutes := first.visitDurationMinutes
  if gapMinutes < requiredMinutes then
    some { appointments := (first, second)
           gapMinutes := gapMinutes
           requiredMinutes := requiredMinutes
           severity :=
             if requiredMinutes - gapMinutes > 30 then Severity.critical
             else if requiredMinutes - gapMinutes > 15 then Severity.major
             else Severity.minor }
  else none

/-- `detectConflict` from `simulation/utils.ts`. -/
def detectConflict (apt1 apt2 : GeocodedAppointment) : Option SchedulingConflict :=
  match apt1.startTime, apt2.startTime with
  | some time1, some time2 =>
    if time1 < time2 then detectConflictOrdered apt1 apt2 time1 time2
    else detectConflictOrdered apt2 apt1 time2 time1
  | _, _ => none

/-- The ordered detector returns no conflict exactly when the gap reaches the
first appointment's visit duration. -/
theorem detectConflictOrdered_eq_none (first second : GeocodedAppointment)
    (firstTime secondTime : ℤ) :
    detectConflictOrdered first second firstTime secondTime = none ↔
      ¬ (secondTime - firstTime < first.visitDurationMinutes) := by
  unfold detectConflictOrdered
  dsimp only
  split_ifs with hc
  · simp [hc]
  · simp [hc]

/-- `getAppointmentPairs` from `simulation/utils.ts`: all index pairs `i < j`
in the nested-loop order of the source. -/
def getAppointmentPairs : List GeocodedAppointment →
    List (GeocodedAppointment × GeocodedAppointment)
  | [] => []
  | a :: rest => rest.map (fun b => (a, b)) ++ getAppointmentPairs rest

/-- `findAllConflicts` from `simulation/utils.ts`: detect over all same-date
pairs. -/
def findAllConflicts (appointments : List GeocodedAppointment) :
    List SchedulingConflict :=
  (getAppointmentPairs appointments).filterMap
    (fun p => if p.1.date = p.2.date then detectConflict p.1 p.2 else none)

/-- `groupAppointmentsByDate` (and the identical inline groupings in
`optimizer.ts` and `reorderer.ts`): a JS `Map` keyed by date, modelled as an
association list in key-first-insertion order with per-key insertion order
preserved. -/
def addToDateGroups (acc : List (String × List GeocodedAppointment))
    (apt : GeocodedAppointment) : List (String × List GeocodedAppointment) :=
  match acc with
  | [] => [(apt.date, [apt])]
  | (d, l) :: rest =>
    if d = apt.date then (d, l ++ [apt]) :: rest
    else (d, l) :: addToDateGroups rest apt

/-- Grouping of a whole appointment list by date. -/
def groupAppointmentsByDate (appointments : List GeocodedAppointment) :
    List (String × List GeocodedAppointment) :=
  appointments.foldl addToDateGroups []

/-! ## Claim C2: pairwise conflict detection -/

/-- C2: for same-date appointments with concrete start times (and the
positive visit durations the data model guarantees), `detectConflict` returns
no conflict exactly when the start-time gap is at least the chronologically
earlier appointment's visit duration; and it returns no conflict whenever
either appointment has no start time. -/
theorem detectConflict_none_iff (a b : GeocodedAppointment) (t1 t2 : ℤ)
    (_hdate : a.date = b.date)
    (hda : 0 < a.visitDurationMinutes) (hdb : 0 < b.visitDurationMinutes) :
    (a.startTime = some t1 → b.startTime = some t2 →
      (detectConflict a b = none ↔
        max t1 t2 - min t1 t2 ≥
          (if t1 ≤ t2 then a.visitDurationMinutes else b.visitDurationMinutes)))
    ∧ ((a.startTime = none ∨ b.startTime = none) → detectConflict a b = none) := by
  constructor
  · intro h1 h2
    simp only [detectConflict, h1, h2]
    rcases lt_trichotomy t1 t2 with h | h | h
    · rw [if_pos h, detectConflictOrdered_eq_none, if_pos h.le]
      omega
    · subst h
      rw [if_neg (lt_irrefl t1), detectConflictOrdered_eq_none, if_pos le_rfl]
      omega
    · rw [if_neg (by omega : ¬ t1 < t2), detectConflictOrdered_eq_none,
        if_neg (by omega : ¬ t1 ≤ t2)]
      omega
  · rintro (h | h) <;> simp [detectConflict, h]

/-- A same-date conflicting pair used to witness C2: 09:00 for 30 minutes
followed by 09:20. -/
def c2Apt1 : GeocodedAppointment :=
  { id := "w1", appName := "W1", visitDurationMinutes := 30, startTime := some 540
    date := "2024-01-15", flexibility := Flexibility.inflexible
    latitude := 1, longitude := 1 }

/-- Second appointment of the C2 witness pair. -/
def c2Apt2 : GeocodedAppointment :=
  { id := "w2", appName := "W2", visitDurationMinutes := 45, startTime := some 560
    date := "2024-01-15", flexibility := Flexibility.inflexible
    latitude := 2, longitude := 2 }

/-- Witness for C2 at the concrete pair above. -/
theorem detectConflict_none_iff_witness :
    detectConflict c2Apt1 c2Apt2 = none ↔
      max (540 : ℤ) 560 - min (540 : ℤ) 560 ≥
        (if (540 : ℤ) ≤ 560 then c2Apt1.visitDurationMinutes
         else c2Apt2.visitDurationMinutes) :=
  (detectConflict_none_iff c2Apt1 c2Apt2 540 560 (by decide) (by decide)
    (by decide)).1 (by decide) (by decide)

/-! ## Claim C4: smart buffer bounds -/

/-- Rounding preserves integer bounds. -/
theorem jsRound_mem_Icc (q : ℚ) (m M : ℤ) (h1 : (m : ℚ) ≤ q) (h2 : q ≤ (M : ℚ)) :
    m ≤ jsRound q ∧ jsRound q ≤ M := by
  unfold jsRound
  constructor
  · rw [Int.le_floor]
    linarith
  · rw [Int.floor_le_iff]
    linarith


/-- C4: for any distance function, appointment pair and configuration whose
minimum and maximum buffers are integer minutes with `min ≤ max`, the smart
buffer lies in `[minimumBufferMinutes, maximumBufferMinutes]`. -/
theorem calculateSmartBuffer_bounds (hav : ℚ → ℚ → ℚ → ℚ → ℚ)
    (apt1 apt2 : GeocodedAppointment) (config : BufferConfiguration)
    (m M : ℤ) (hm : config.minimumBufferMinutes = (m : ℚ))
    (hM : config.maximumBufferMinutes = (M : ℚ)) (hle : m ≤ M) :
    m ≤ calculateSmartBuffer hav apt1 apt2 config ∧
      calculateSmartBuffer hav apt1 apt2 config ≤ M := by
  unfold calculateSmartBuffer
  apply jsRound_mem_Icc
  · rw [hm]
    exact le_max_left _ _
  · rw [hm, hM]
    apply max_le
    · exact_mod_cast hle
    · exact min_le_left _ _

/-- Witness for C4 at a concrete pair and the default configuration. -/
theorem calculateSmartBuffer_bounds_witness :
    15 ≤ calculateSmartBuffer (fun _ _ _ _ => 5) c2Apt1 c2Apt2 DEFAULT_BUFFER_CONFIG ∧
      calculateSmartBuffer (fun _ _ _ _ => 5) c2Apt1 c2Apt2 DEFAULT_BUFFER_CONFIG ≤ 120 :=
  calculateSmartBuffer_bounds (fun _ _ _ _ => 5) c2Apt1 c2Apt2 DEFAULT_BUFFER_CONFIG
    15 120 (by norm_num [DEFAULT_BUFFER_CONFIG]) (by norm_num [DEFAULT_BUFFER_CONFIG])
    (by decide)

/-! ## Claim C5: the distance surcharge -/

/-- The smart buffer as claim C5 words it: the same base, flexibility and
duration adjustments, then a surcharge of exactly +15 minutes whenever the
great-circle distance exceeds 10 km (never +30, also beyond 50 km) and no
surcharge at 10 km or less, followed by the clamp and the rounding.  This is
the claim-side definition, to be compared with `calculateSmartBuffer`. -/
def calculateSmartBufferAsClaimed (hav : ℚ → ℚ → ℚ → ℚ → ℚ)
    (apt1 apt2 : GeocodedAppointment) (config : BufferConfiguration) : ℤ :=
  let buffer0 : ℚ := config.baseBufferMinutes
  let buffer1 : ℚ :=
    if ¬ (isInflexible apt1 = true) ∧ ¬ (isInflexible apt2 = true) then
      buffer0 * config.flexibleFactor
    else buffer0
  let avgDuration : ℚ :=
    (((apt1.visitDurationMinutes : ℚ)) + ((apt2.visitDurationMinutes : ℚ))) / 2
  let buffer2 : ℚ :=
    if avgDuration > 60 then buffer1 * 1.2
    else if avgDuration < 30 then buffer1 * 0.9
    else buffer1
  let distance := hav apt1.latitude apt1.longitude apt2.latitude apt2.longitude
  let buffer3 : ℚ := if distance > 10 then buffer2 + 15 else buffer2
  let clamped : ℚ :=
    max config.minimumBufferMinutes (min config.maximumBufferMinutes buffer3)
  jsRound clamped

/-- C5 (amended): for pairs passing the coordinate guard (all four
coordinates nonzero), the smart buffer adds exactly +15 minutes when the
distance exceeds 10 km — including every pair beyond 50 km, which never gets
the +30 branch — and no surcharge at 10 km or less. -/
theorem calculateSmartBuffer_surcharge (hav : ℚ → ℚ → ℚ → ℚ → ℚ)
    (apt1 apt2 : GeocodedAppointment) (config : BufferConfiguration)
    (h1 : apt1.latitude ≠ 0) (h2 : apt1.longitude ≠ 0)
    (h3 : apt2.latitude ≠ 0) (h4 : apt2.longitude ≠ 0) :
    calculateSmartBuffer hav apt1 apt2 config =
      calculateSmartBufferAsClaimed hav apt1 apt2 config := by
  unfold calculateSmartBuffer calculateSmartBufferAsClaimed
  dsimp only
  rw [if_pos ⟨h1, h2, h3, h4⟩]
  by_cases hd : hav apt1.latitude apt1.longitude apt2.latitude apt2.longitude > 10
  · rw [if_pos hd, if_pos hd]
  · rw [if_neg hd, if_neg hd,
      if_neg (by push_neg at hd ⊢; linarith :
        ¬ hav apt1.latitude apt1.longitude apt2.latitude apt2.longitude > 50)]

/-- Witness for the amended C5 at a concrete pair with nonzero coordinates. -/
theorem calculateSmartBuffer_surcharge_witness :
    calculateSmartBuffer (fun _ _ _ _ => 111) c2Apt1 c2Apt2 DEFAULT_BUFFER_CONFIG =
      calculateSmartBufferAsClaimed (fun _ _ _ _ => 111) c2Apt1 c2Apt2
        DEFAULT_BUFFER_CONFIG :=
  calculateSmartBuffer_surcharge (fun _ _ _ _ => 111) c2Apt1 c2Apt2
    DEFAULT_BUFFER_CONFIG (by decide) (by decide) (by decide) (by decide)

/-- An appointment sitting on the equator: its latitude 0 is falsy in
JavaScript, so the source skips the distance surcharge for any pair involving
it. -/
def c5AptEquator : GeocodedAppointment :=
  { id := "e1", appName := "Equator", visitDurationMinutes := 45, startTime := some 540
    date := "2024-01-15", flexibility := Flexibility.inflexible
    latitude := 0, longitude := 30 }

/-- The other appointment of the C5 counterexample pair, far from the first. -/
def c5AptFar : GeocodedAppointment :=
  { id := "e2", appName := "Far", visitDurationMinutes := 45, startTime := some 780
    date := "2024-01-15", flexibility := Flexibility.inflexible
    latitude := 5, longitude := 31 }

/-- Counterexample to C5 as stated: a pair of geocoded appointments with
known coordinates, 111 km apart (well over 10 km), for which
`calculateSmartBuffer` returns the unsurcharged 45 rather than the claimed
45 + 15 = 60: the latitude 0 of the first appointment fails the JavaScript
truthiness guard, so the surcharge branch is skipped entirely. -/
theorem calculateSmartBuffer_surcharge_counterexample :
    calculateSmartBuffer (fun _ _ _ _ => 111) c5AptEquator c5AptFar
        DEFAULT_BUFFER_CONFIG = 45 ∧
      calculateSmartBufferAsClaimed (fun _ _ _ _ => 111) c5AptEquator c5AptFar
        DEFAULT_BUFFER_CONFIG = 60 := by
  constructor <;>
    norm_num [calculateSmartBuffer, calculateSmartBufferAsClaimed, c5AptEquator,
      c5AptFar, DEFAULT_BUFFER_CONFIG, isInflexible, jsRound]

/-! ## Claim C6: reordering generation -/

/-- The recursion of `permute` from `simulation/utils.ts`, written with an
explicit fuel so that the definition is structural (and hence evaluates by
kernel reduction): for each index, take the element at that index and prepend
it to every permutation of the remaining elements; lists of length at most
one are returned as the single ordering.  Each recursive call shortens the
list by one, so with `fuel = l.length` the fuel-exhausted branch is
unreachable. -/
def permuteFuel {α : Type} : ℕ → List α → List (List α)
  | _, [] => [[]]
  | _, [a] => [[a]]
  | 0, l => [l]
  | fuel + 1, a :: b :: rest =>
    (List.finRange (a :: b :: rest).length).flatMap (fun i =>
      (permuteFuel fuel ((a :: b :: rest).eraseIdx i)).map
        (fun p => (a :: b :: rest).get i :: p))

/-- `permute` from `simulation/utils.ts`. -/
def permute {α : Type} (l : List α) : List (List α) := permuteFuel l.length l

/-- With enough fuel, `permuteFuel` produces exactly `n!` orderings of an
`n`-element list. -/
theorem length_permuteFuel {α : Type} :
    ∀ (fuel : ℕ) (l : List α), l.length ≤ fuel + 1 →
      (permuteFuel fuel l).length = Nat.factorial l.length := by
  intro fuel
  induction fuel with
  | zero =>
    intro l hl
    match l with
    | [] => rfl
    | [a] => rfl
    | a :: b :: rest => simp at hl
  | succ fuel ih =>
    intro l hl
    match l with
    | [] => rfl
    | [a] => rfl
    | a :: b :: rest =>
      rw [permuteFuel, List.length_flatMap]
      have hpt : ∀ i ∈ List.finRange (a :: b :: rest).length,
          (List.length ∘ fun (i : Fin (a :: b :: rest).length) =>
            (permuteFuel fuel ((a :: b :: rest).eraseIdx i)).map
              (fun p => (a :: b :: rest).get i :: p)) i =
          Nat.factorial (b :: rest).length := by
        intro i _
        simp only [Function.comp_apply, List.length_map]
        have hlen : ((a :: b :: rest).eraseIdx ↑i).length = (b :: rest).length := by
          have h := List.length_eraseIdx_add_one i.isLt
          simp only [List.length_cons] at h ⊢
          omega
        rw [ih _ (by
          rw [hlen]
          simp only [List.length_cons] at hl ⊢
          omega), hlen]
      rw [List.map_congr_left hpt, List.map_const', List.sum_replicate, smul_eq_mul,
        List.length_finRange]
      simp only [List.length_cons, Nat.factorial_succ]

/-- `permute` produces exactly `n!` orderings of an `n`-element list. -/
theorem length_permute {α : Type} (l : List α) :
    (permute l).length = Nat.factorial l.length :=
  length_permuteFuel l.length l (Nat.le_succ _)

/-- The interleaving loop of `generateReorderings`: walk the original list,
keep inflexible entries in place and fill flexible slots from the permuted
flexible list in order.  (The source reads `flexiblePerm[flexIndex++]`, which
is always in bounds because each permutation has exactly as many entries as
there are flexible slots; the unreachable out-of-bounds case is modelled by
keeping the original entry.) -/
def interleaveReordering :
    List GeocodedAppointment → List GeocodedAppointment → List GeocodedAppointment
  | [], _ => []
  | orig :: rest, fs =>
    if isInflexible orig then orig :: interleaveReordering rest fs
    else
      match fs with
      | f :: fsRest => f :: interleaveReordering rest fsRest
      | [] => orig :: interleaveReordering rest []

/-- `generateReorderings` from `simulation/utils.ts`.  (The source also
computes a `sortedInflexible` list that it never reads; that dead binding is
omitted.) -/
def generateReorderings (appointments : List GeocodedAppointment) :
    List (List GeocodedAppointment) :=
  let inflexible := appointments.filter isInflexible
  let flexible := appointments.filter (fun a => ! isInflexible a)
  if inflexible = [] ∨ flexible = [] then [appointments]
  else (permute flexible).map (fun flexiblePerm =>
    interleaveReordering appointments flexiblePerm)

/-- Interleaving keeps every inflexible entry at its original index,
whatever the flexible fill list is. -/
theorem interleaveReordering_getElem?_of_inflexible :
    ∀ (orig fs : List GeocodedAppointment) (i : ℕ) (hi : i < orig.length),
      isInflexible (orig.get ⟨i, hi⟩) = true →
      (interleaveReordering orig fs)[i]? = orig[i]? := by
  intro orig
  induction orig with
  | nil => intro fs i hi; simp at hi
  | cons a rest ih =>
    intro fs i hi hinf
    cases i with
    | zero =>
      simp only [List.get] at hinf
      simp [interleaveReordering, hinf]
    | succ n =>
      have hn : n < rest.length := by
        simpa [Nat.succ_lt_succ_iff] using hi
      have hrec : ∀ fs2, (interleaveReordering rest fs2)[n]? = rest[n]? := by
        intro fs2
        exact ih fs2 n hn (by simpa [List.get] using hinf)
      unfold interleaveReordering
      by_cases ha : isInflexible a
      · simp [ha, hrec]
      · cases fs with
        | nil => simp [ha, hrec]
        | cons f fsRest => simp [ha, hrec]

/-- C6: with at least one inflexible and at least one flexible appointment,
`generateReorderings` returns exactly `k!` orderings (`k` the number of
flexible appointments), each keeping every inflexible appointment at its
original index; with no flexible or no inflexible appointments it returns
exactly the original list. -/
theorem generateReorderings_spec (appointments : List GeocodedAppointment) :
    ((appointments.filter isInflexible = [] ∨
        appointments.filter (fun a => ! isInflexible a) = []) →
      generateReorderings appointments = [appointments])
    ∧ (appointments.filter isInflexible ≠ [] →
       appointments.filter (fun a => ! isInflexible a) ≠ [] →
      (generateReorderings appointments).length =
        Nat.factorial (appointments.filter (fun a => ! isInflexible a)).length ∧
      ∀ r ∈ generateReorderings appointments, ∀ (i : ℕ) (hi : i < appointments.length),
        isInflexible (appointments.get ⟨i, hi⟩) = true →
        r[i]? = appointments[i]?) := by
  constructor
  · intro h
    unfold generateReorderings
    simp only [if_pos h]
  · intro hm hk
    have hcond : ¬ (appointments.filter isInflexible = [] ∨
        appointments.filter (fun a => ! isInflexible a) = []) := by
      rintro (h | h)
      · exact hm h
      · exact hk h
    constructor
    · unfold generateReorderings
      simp only [if_neg hcond, List.length_map]
      exact length_permute _
    · intro r hr i hi hinf
      unfold generateReorderings at hr
      simp only [if_neg hcond, List.mem_map] at hr
      rcases hr with ⟨p, _, hp⟩
      rw [← hp]
      exact interleaveReordering_getElem?_of_inflexible appointments p i hi hinf

/-- A flexible appointment used in the C6 witness. -/
def c6Flex1 : GeocodedAppointment :=
  { id := "f1", appName := "F1", visitDurationMinutes := 30, startTime := none
    date := "2024-01-15", flexibility := Flexibility.flexible
    latitude := 1, longitude := 1 }

/-- A second flexible appointment used in the C6 witness. -/
def c6Flex2 : GeocodedAppointment :=
  { id := "f2", appName := "F2", visitDurationMinutes := 60, startTime := none
    date := "2024-01-15", flexibility := Flexibility.flexible
    latitude := 2, longitude := 2 }

/-- The C6 witness list: flexible, inflexible, flexible. -/
def c6Ex : List GeocodedAppointment := [c6Flex1, c2Apt1, c6Flex2]

/-- Witness for C6: on the concrete list above (2 flexible, 1 inflexible) the
generator yields 2! orderings and the head ordering keeps the inflexible
appointment at index 1. -/
theorem generateReorderings_spec_witness :
    (generateReorderings c6Ex).length =
      Nat.factorial ((c6Ex.filter (fun a => ! isInflexible a)).length) ∧
    ((generateReorderings c6Ex).headD [])[1]? = c6Ex[1]? := by
  have h := (generateReorderings_spec c6Ex).2 (by decide) (by decide)
  refine ⟨h.1, h.2 ((generateReorderings c6Ex).headD []) (by decide) 1 (by decide)
    (by decide)⟩

/-! ## Claim C7: the impact score formula -/

/-- Change kind (source
`'reorder' | 'reschedule' | 'buffer-adjust' | 'duration-adjust'`). -/
inductive ChangeType where
  | reorder
  | reschedule
  | bufferAdjust
  | durationAdjust
deriving DecidableEq, Repr

/-- `ScheduleChange` from `types.ts`.  `originalTime`/`proposedTime` hold a
time in minutes, `none` modelling the literal string `'flexible'`; `reason`
is free text. -/
structure ScheduleChange where
  type : ChangeType
  appointmentId : String
  appointmentName : String
  originalTime : Option ℤ
  proposedTime : Option ℤ
  reason : String
  impactMinutes : ℚ
deriving DecidableEq, Repr

/-- Solution feasibility tag (source `'feasible' | 'infeasible'`). -/
inductive Feasibility where
  | feasible
  | infeasible
deriving DecidableEq, Repr

/-- `SimulationStats` from `types.ts`. -/
structure SimulationStats where
  totalScenariosTested : ℕ
  feasibleScenarios : ℕ
  bestScenarioGapMinutes : ℚ
  worstScenarioGapMinutes : ℚ
  averageGapMinutes : ℚ
  reorderingsTested : ℕ
  buffersTested : ℕ
deriving DecidableEq, Repr

/-- `Solution` from `types.ts`.  The TS type declares `statistics` as always
present, but `calculateBufferDeviationScore` tests `!solution.statistics`, so
it is modelled as an `Option`; every constructor embedded below supplies
`some`. -/
structure Solution where
  changes : List ScheduleChange
  successRate : ℚ
  impactScore : ℚ
  feasibility : Feasibility
  reasoning : List String
  statistics : Option SimulationStats
deriving DecidableEq, Repr

/-- `calculateDisruptionScore` from `simulation/scoring.ts`.  (Its
`originalAppointments` parameter is never read and is omitted.) -/
def calculateDisruptionScore (solution : Solution) : ℚ :=
  if solution.changes = [] then 0
  else
    let totalImpactMinutes := (solution.changes.map (fun c => c.impactMinutes)).sum
    let maxPossibleImpact : ℚ := 480 * solution.changes.length
    min 100 (round1 (totalImpactMinutes / max maxPossibleImpact 1 * 100))

/-- `calculateBufferDeviationScore` from `simulation/scoring.ts`. -/
def calculateBufferDeviationScore (solution : Solution)
    (config : BufferConfiguration) : ℚ :=
  match solution.statistics with
  | none => 0
  | some st =>
    if st.bestScenarioGapMinutes = 0 then 0
    else
      let deviationRatio := st.bestScenarioGapMinutes / config.baseBufferMinutes
      if deviationRatio ≤ 1 then 0
      else if deviationRatio ≤ 1.5 then 25
      else if deviationRatio ≤ 2 then 60
      else 100

/-- `calculateImpactScore` from `simulation/scoring.ts` (the
`originalAppointments` parameter is never read and is omitted; `config`
defaults to `DEFAULT_BUFFER_CONFIG` at every call site that omits it). -/
def calculateImpactScore (solution : Solution) (config : BufferConfiguration) : ℚ :=
  let disruption := calculateDisruptionScore solution
  let successPenalty := (1 - solution.successRate) * 100
  let bufferDeviation := calculateBufferDeviationScore solution config
  round2 (disruption * 0.4 + successPenalty * 0.3 + bufferDeviation * 0.3)

/-- The impact score exactly as claim C7 words it:
`round2 (0.4 * disruption + 0.3 * (100 * (1 - successRate)) + 0.3 * bufferDeviation)`
with `disruption = 0` for no changes and otherwise
`min 100 (round1 (100 * sum impactMinutes / (480 * numChanges)))`, and the
categorical buffer deviation.  This is the claim-side definition, to be
compared with `calculateImpactScore`. -/
def impactScoreAsClaimed (solution : Solution) (config : BufferConfiguration) : ℚ :=
  let disruption : ℚ :=
    if solution.changes = [] then 0
    else min 100 (round1 (100 * (solution.changes.map (fun c => c.impactMinutes)).sum /
      (480 * solution.changes.length)))
  let bufferDeviation : ℚ :=
    match solution.statistics with
    | none => 0
    | some st =>
      if st.bestScenarioGapMinutes = 0 then 0
      else
        let ratio := st.bestScenarioGapMinutes / config.baseBufferMinutes
        if ratio ≤ 1 then 0
        else if ratio ≤ 1.5 then 25
        else if ratio ≤ 2 then 60
        else 100
  round2 (0.4 * disruption + 0.3 * (100 * (1 - solution.successRate)) +
    0.3 * bufferDeviation)

/-- C7: the impact score is exactly the claimed deterministic formula of the
Solution fields (and of the configured base buffer), for every solution and
configuration. -/
theorem calculateImpactScore_eq_claimed (solution : Solution)
    (config : BufferConfiguration) :
    calculateImpactScore solution config = impactScoreAsClaimed solution config := by
  have hd : calculateDisruptionScore solution =
      (if solution.changes = [] then (0:ℚ)
       else min 100 (round1 (100 * (solution.changes.map (fun c => c.impactMinutes)).sum /
         (480 * solution.changes.length)))) := by
    unfold calculateDisruptionScore
    by_cases hch : solution.changes = []
    · simp [hch]
    · rw [if_neg hch, if_neg hch]
      dsimp only
      have h1 : 0 < solution.changes.length := List.length_pos.mpr hch
      have hn : (1:ℚ) ≤ 480 * solution.changes.length := by
        have : (1:ℚ) ≤ (solution.changes.length : ℚ) := by exact_mod_cast h1
        linarith
      rw [max_eq_left hn]
      congr 2
      ring
  unfold calculateImpactScore impactScoreAsClaimed
  dsimp only
  rw [hd]
  congr 1
  unfold calculateBufferDeviationScore
  ring

/-! ## The Route Builder (`optimizer.ts` and `algorithm/validator.ts`) -/

/-- `DistanceResult` from `types.ts`: metres and minutes, as returned by the
external distance-matrix collaborator. -/
structure DistanceResult where
  distance : ℚ
  duration : ℤ
deriving DecidableEq, Repr

/-- `VisitStop` from `types.ts`. -/
structure VisitStop where
  appointment : GeocodedAppointment
  order : ℕ
  arrivalTime : ℤ
  travelTimeFromPrevious : ℤ
  distanceFromPrevious : ℚ
  status : ArrivalStatus
  minutesFromPreferred : ℤ
deriving DecidableEq, Repr

/-- The result record of `calculateRoute`. -/
structure RouteDetails where
  stops : List VisitStop
  totalDistance : ℚ
  totalDriveTime : ℤ
  totalVisitTime : ℤ
deriving DecidableEq, Repr

/-- The oracle modelling `getDistanceMatrix origin [destination]`: `none` is
the empty-result case, on which every call site falls back to the geodesic
estimate. -/
abbrev DistanceOracle :=
  ℚ × ℚ → ℚ × ℚ → Option DistanceResult

/-- `calculateRouteCost` from `optimizer.ts`: summed point-to-point distance
cost over consecutive pairs, with geodesic fallback (km × 1000 metres). -/
def calculateRouteCost (dm : DistanceOracle) (hav : ℚ → ℚ → ℚ → ℚ → ℚ) :
    List GeocodedAppointment → ℚ
  | [] => 0
  | [_] => 0
  | a :: b :: rest =>
    (match dm (a.latitude, a.longitude) (b.latitude, b.longitude) with
     | some r => r.distance
     | none => hav a.latitude a.longitude b.latitude b.longitude * 1000)
    + calculateRouteCost dm hav (b :: rest)

/-- `insertFlexibleAppointment` from `optimizer.ts`: try every insertion
position `0..len`, commit the first strictly-cheapest one.  The JS
`bestCost = Infinity` sentinel is the `none` of the accumulator. -/
def insertFlexibleAppointment (dm : DistanceOracle) (hav : ℚ → ℚ → ℚ → ℚ → ℚ)
    (flexibleApt : GeocodedAppointment)
    (orderedAppointments : List GeocodedAppointment) : List GeocodedAppointment :=
  if orderedAppointments = [] then [flexibleApt]
  else
    let best :=
      (List.range (orderedAppointments.length + 1)).foldl
        (fun (acc : ℕ × Option ℚ) position =>
          let cost := calculateRouteCost dm hav
            (orderedAppointments.insertIdx position flexibleApt)
          match acc.2 with
          | none => (position, some cost)
          | some bestCost => if cost < bestCost then (position, some cost) else acc)
        (0, none)
    orderedAppointments.insertIdx best.1 flexibleApt

/-- `optimizeInflexiblePositions` from `optimizer.ts`: the reserved no-op
pass-through. -/
def optimizeInflexiblePositions (currentOrder : List GeocodedAppointment)
    (_inflexibleList : List GeocodedAppointment) : List GeocodedAppointment :=
  currentOrder

/-- The sort comparator used on inflexible appointments (ascending by start
time; the source comparator reports two entries as equal when either has no
start time, and the stable JS sort then keeps them in place). -/
def inflexibleLE (a b : GeocodedAppointment) : Bool :=
  match a.startTime, b.startTime with
  | none, _ => true
  | _, none => true
  | some ta, some tb => ta ≤ tb

/-- The travel leg used by `calculateRoute` between two consecutive stops:
duration minutes and distance metres from the oracle, else the geodesic
fallback `round (km * 1.2)` minutes and `km * 1000` metres. -/
def routeTravel (dm : DistanceOracle) (hav : ℚ → ℚ → ℚ → ℚ → ℚ)
    (prevApt currentApt : GeocodedAppointment) : ℤ × ℚ :=
  match dm (prevApt.latitude, prevApt.longitude)
      (currentApt.latitude, currentApt.longitude) with
  | some r => (r.duration, r.distance)
  | none =>
    let geodesicDist :=
      hav prevApt.latitude prevApt.longitude currentApt.latitude currentApt.longitude
    (jsRound (geodesicDist * 1.2), geodesicDist * 1000)

/-- The per-stop loop of `calculateRoute` (stops after the first): each
arrival is the previous arrival plus the previous visit duration plus the
travel time; the tuple also accumulates total distance, drive time and visit
time. -/
def calculateRouteLoop (dm : DistanceOracle) (hav : ℚ → ℚ → ℚ → ℚ → ℚ)
    (prevApt : GeocodedAppointment) (currentTime : ℤ) (i : ℕ) :
    List GeocodedAppointment → List VisitStop × ℚ × ℤ × ℤ
  | [] => ([], 0, 0, 0)
  | currentApt :: rest =>
    let tv := routeTravel dm hav prevApt currentApt
    let travelTime := tv.1
    let distance := tv.2
    let newTime := currentTime + prevApt.visitDurationMinutes + travelTime
    let stop : VisitStop :=
      { appointment := currentApt
        order := i + 1
        arrivalTime := newTime
        travelTimeFromPrevious := travelTime
        distanceFromPrevious := distance
        status := getArrivalStatus newTime
          (match currentApt.startTime with
           | some t => t
           | none => newTime) GRACE_PERIOD_MINUTES
        minutesFromPreferred :=
          match currentApt.startTime with
          | some t => |newTime - t|
          | none => 0 }
    let restResult := calculateRouteLoop dm hav currentApt newTime (i + 1) rest
    (stop :: restResult.1, distance + restResult.2.1,
      travelTime + restResult.2.2.1,
      currentApt.visitDurationMinutes + restResult.2.2.2)

/-- `calculateRoute` from `optimizer.ts`: the first arrival is the first
appointment's preferred time if it is inflexible, else the 09:00 day start;
later stops follow `calculateRouteLoop`. -/
def calculateRoute (dm : DistanceOracle) (hav : ℚ → ℚ → ℚ → ℚ → ℚ) :
    List GeocodedAppointment → RouteDetails
  | [] => { stops := [], totalDistance := 0, totalDriveTime := 0, totalVisitTime := 0 }
  | firstApt :: rest =>
    let currentTime : ℤ :=
      match firstApt.startTime, isInflexible firstApt with
      | some t, true => t
      | _, _ => 9 * 60
    let firstStop : VisitStop :=
      { appointment := firstApt
        order := 1
        arrivalTime := currentTime
        travelTimeFromPrevious := 0
        distanceFromPrevious := 0
        status := getArrivalStatus currentTime
          (match firstApt.startTime with
           | some t => t
           | none => 9 * 60) GRACE_PERIOD_MINUTES
        minutesFromPreferred :=
          match firstApt.startTime with
          | some t => |currentTime - t|
          | none => 0 }
    let restResult := calculateRouteLoop dm hav firstApt currentTime 1 rest
    { stops := firstStop :: restResult.1
      totalDistance := restResult.2.1
      totalDriveTime := restResult.2.2.1
      totalVisitTime := firstApt.visitDurationMinutes + restResult.2.2.2 }

/-- The per-day result of `optimizeDay`. -/
structure DayResult where
  stops : List VisitStop
  totalDistance : ℚ
  totalDriveTime : ℤ
  totalVisitTime : ℤ
  warnings : List String
deriving DecidableEq, Repr

/-- `optimizeDay` from `optimizer.ts`: inflexible anchors sorted by start
time, flexible appointments inserted one by one at the cheapest position,
then the timed itinerary. -/
def optimizeDay (dm : DistanceOracle) (hav : ℚ → ℚ → ℚ → ℚ → ℚ)
    (appointments : List GeocodedAppointment) : DayResult :=
  let inflexibleAppointments := (appointments.filter isInflexible).mergeSort inflexibleLE
  let flexibleAppointments := appointments.filter (fun a => ! isInflexible a)
  let orderedAppointments := flexibleAppointments.foldl
    (fun acc f => insertFlexibleAppointment dm hav f acc) inflexibleAppointments
  let finalOptimized := optimizeInflexiblePositions orderedAppointments inflexibleAppointments
  let result := calculateRoute dm hav finalOptimized
  let avgSegmentDistance := result.totalDistance / ((max (result.stops.length - 1) 1 : ℕ) : ℚ)
  let warnings : List String :=
    if avgSegmentDistance > 50000 then
      ["Route has long distances between stops. Consider breaking into multiple days or combining nearby appointments."]
    else []
  { stops := result.stops
    totalDistance := result.totalDistance
    totalDriveTime := result.totalDriveTime
    totalVisitTime := result.totalVisitTime
    warnings := warnings }

/-- One violation reported by `checkScheduleFeasibility` in
`algorithm/validator.ts` (the source builds message strings; the embedded
form keeps the identifying data). -/
inductive FeasibilityError where
  | tooClose (date : String) (firstId : String) (secondId : String)
  | maybeUnreachable (date : String) (firstId : String) (secondId : String)
deriving DecidableEq, Repr

/-- Consecutive pairs of a list, as the indexed loops of the source visit
them. -/
def adjacentPairs {α : Type} : List α → List (α × α)
  | [] => []
  | [_] => []
  | a :: b :: rest => (a, b) :: adjacentPairs (b :: rest)

/-- `checkScheduleFeasibility` from `algorithm/validator.ts`: per date, sort
the inflexible appointments by start time and flag consecutive pairs that are
too close (gap below the earlier visit duration) and pairs that look
unreachable (over 200 km apart with under 120 minutes of gap). -/
def checkScheduleFeasibility (hav : ℚ → ℚ → ℚ → ℚ → ℚ)
    (appointments : List GeocodedAppointment) : List FeasibilityError :=
  (groupAppointmentsByDate appointments).flatMap (fun group =>
    let date := group.1
    let inflexible := (group.2.filter isInflexible).mergeSort inflexibleLE
    let closeErrors := (adjacentPairs inflexible).filterMap (fun p =>
      match p.1.startTime, p.2.startTime with
      | some t1, some t2 =>
        if t2 - t1 < p.1.visitDurationMinutes then
          some (FeasibilityError.tooClose date p.1.id p.2.id)
        else none
      | _, _ => none)
    let travelErrors := (adjacentPairs inflexible).filterMap (fun p =>
      match p.1.startTime, p.2.startTime with
      | some t1, some t2 =>
        if hav p.1.latitude p.1.longitude p.2.latitude p.2.longitude > 200 ∧
            t2 - t1 < 120 then
          some (FeasibilityError.maybeUnreachable date p.1.id p.2.id)
        else none
      | _, _ => none)
    closeErrors ++ travelErrors)

/-- Structured form of the `reason` string of `canOptimizeRoute`. -/
inductive CanOptimizeReason where
  | allInflexible
  | limitedFlexibility (flexible : ℕ) (total : ℕ)
  | infeasible (errors : List FeasibilityError)
  | ok (total : ℕ) (inflexibleCount : ℕ) (flexibleCount : ℕ)
deriving DecidableEq, Repr

/-- The result record of `canOptimizeRoute`. -/
structure CanOptimizeResult where
  canOptimize : Bool
  reason : CanOptimizeReason
deriving DecidableEq, Repr

/-- `canOptimizeRoute` from `algorithm/validator.ts`. -/
def canOptimizeRoute (hav : ℚ → ℚ → ℚ → ℚ → ℚ)
    (appointments : List GeocodedAppointment) : CanOptimizeResult :=
  let total := appointments.length
  let inflexibleCount := (appointments.filter isInflexible).length
  let flexibleCount := (appointments.filter (fun a => ! isInflexible a)).length
  if flexibleCount = 0 then
    { canOptimize := false, reason := CanOptimizeReason.allInflexible }
  else if (inflexibleCount : ℚ) / (total : ℚ) > 0.8 then
    { canOptimize := true
      reason := CanOptimizeReason.limitedFlexibility flexibleCount total }
  else
    let feasibilityErrors := checkScheduleFeasibility hav appointments
    if feasibilityErrors ≠ [] then
      { canOptimize := false, reason := CanOptimizeReason.infeasible feasibilityErrors }
    else
      { canOptimize := true
        reason := CanOptimizeReason.ok total inflexibleCount flexibleCount }

/-- Structured form of the `error` message of a failed `optimizeRoute`. -/
inductive RouteFailure where
  | noAppointments
  | cannotOptimize (reason : CanOptimizeReason)
deriving DecidableEq, Repr

/-- `OptimizedRoute` from `types.ts` (`warnings` is modelled as a plain list,
the source leaves the field undefined when the list is empty). -/
structure OptimizedRoute where
  stops : List VisitStop
  totalDistance : ℚ
  totalDriveTime : ℤ
  totalVisitTime : ℤ
  routeDate : String
  success : Bool
  error : Option RouteFailure
  warnings : List String
deriving DecidableEq, Repr

/-- `optimizeRoute` from `optimizer.ts`: reject empty input, check
`canOptimizeRoute`, then optimise each date group and concatenate. -/
def optimizeRoute (dm : DistanceOracle) (hav : ℚ → ℚ → ℚ → ℚ → ℚ)
    (appointments : List GeocodedAppointment) : OptimizedRoute :=
  match appointments with
  | [] =>
    { stops := [], totalDistance := 0, totalDriveTime := 0, totalVisitTime := 0
      routeDate := "", success := false
      error := some RouteFailure.noAppointments, warnings := [] }
  | first :: _ =>
    let check := canOptimizeRoute hav appointments
    if check.canOptimize = false then
      { stops := [], totalDistance := 0, totalDriveTime := 0, totalVisitTime := 0
        routeDate := first.date, success := false
        error := some (RouteFailure.cannotOptimize check.reason), warnings := [] }
    else
      let dayResults := (groupAppointmentsByDate appointments).map
        (fun g => optimizeDay dm hav g.2)
      { stops := dayResults.flatMap (fun r => r.stops)
        totalDistance := (dayResults.map (fun r => r.totalDistance)).sum
        totalDriveTime := (dayResults.map (fun r => r.totalDriveTime)).sum
        totalVisitTime := (dayResults.map (fun r => r.totalVisitTime)).sum
        routeDate := first.date
        success := true
        error := none
        warnings := dayResults.flatMap (fun r => r.warnings) }

/-! ## Claim C10: stops without a preferred time are always on time -/

/-- Comparing a time with itself is on time whenever the grace period is
nonnegative. -/
theorem getArrivalStatus_self (t g : ℤ) (hg : 0 ≤ g) :
    getArrivalStatus t t g = ArrivalStatus.on_time := by
  simp [getArrivalStatus, timeDifference, hg]

/-- Every stop produced by the route loop whose appointment has no start
time is on time with zero minutes from preferred. -/
theorem calculateRouteLoop_flexible_on_time (dm : DistanceOracle)
    (hav : ℚ → ℚ → ℚ → ℚ → ℚ) :
    ∀ (rest : List GeocodedAppointment) (prevApt : GeocodedAppointment)
      (t : ℤ) (i : ℕ) (s : VisitStop),
      s ∈ (calculateRouteLoop dm hav prevApt t i rest).1 →
      s.appointment.startTime = none →
      s.status = ArrivalStatus.on_time ∧ s.minutesFromPreferred = 0 := by
  intro rest
  induction rest with
  | nil =>
    intro prevApt t i s hs _
    simp [calculateRouteLoop] at hs
  | cons cur rest ih =>
    intro prevApt t i s hs hnone
    rw [calculateRouteLoop] at hs
    dsimp only at hs
    rcases List.mem_cons.mp hs with h | h
    · subst h
      simp only at hnone
      refine ⟨?_, ?_⟩
      · simp only [hnone]
        exact getArrivalStatus_self _ _ (by decide)
      · simp only [hnone]
    · exact ih cur _ (i + 1) s h hnone

/-- Every stop of `calculateRoute` whose appointment has no start time is on
time with zero minutes from preferred. -/
theorem calculateRoute_flexible_on_time (dm : DistanceOracle)
    (hav : ℚ → ℚ → ℚ → ℚ → ℚ) (ordered : List GeocodedAppointment)
    (s : VisitStop) (hs : s ∈ (calculateRoute dm hav ordered).stops)
    (hnone : s.appointment.startTime = none) :
    s.status = ArrivalStatus.on_time ∧ s.minutesFromPreferred = 0 := by
  match ordered with
  | [] => simp [calculateRoute] at hs
  | firstApt :: rest =>
    rw [calculateRoute] at hs
    dsimp only at hs
    rcases List.mem_cons.mp hs with h | h
    · subst h
      simp only at hnone
      refine ⟨?_, ?_⟩
      · simp only [hnone]
        exact getArrivalStatus_self _ _ (by decide)
      · simp only [hnone]
    · exact calculateRouteLoop_flexible_on_time dm hav rest firstApt _ 1 s h hnone

/-- C10: every stop of an `optimizeRoute` output whose appointment has no
preferred start time is reported `on_time` with `minutesFromPreferred = 0`
(the first such stop is compared against the assigned 09:00 day start, later
ones against their own arrival). -/
theorem optimizeRoute_flexible_on_time (dm : DistanceOracle)
    (hav : ℚ → ℚ → ℚ → ℚ → ℚ) (appointments : List GeocodedAppointment)
    (s : VisitStop) (hs : s ∈ (optimizeRoute dm hav appointments).stops)
    (hnone : s.appointment.startTime = none) :
    s.status = ArrivalStatus.on_time ∧ s.minutesFromPreferred = 0 := by
  match appointments with
  | [] => simp [optimizeRoute] at hs
  | first :: restApts =>
    rw [optimizeRoute] at hs
    dsimp only at hs
    by_cases hc : (canOptimizeRoute hav (first :: restApts)).canOptimize = false
    · simp [hc] at hs
    · rw [if_neg hc] at hs
      dsimp only at hs
      rcases List.mem_flatMap.mp hs with ⟨r, hr, hsr⟩
      rcases List.mem_map.mp hr with ⟨g, _, hgr⟩
      subst hgr
      have hday : s ∈ (calculateRoute dm hav
          (optimizeInflexiblePositions
            ((g.2.filter (fun a => ! isInflexible a)).foldl
              (fun acc f => insertFlexibleAppointment dm hav f acc)
              ((g.2.filter isInflexible).mergeSort inflexibleLE))
            ((g.2.filter isInflexible).mergeSort inflexibleLE))).stops := by
        simpa [optimizeDay] using hsr
      exact calculateRoute_flexible_on_time dm hav _ s hday hnone

/-! ## Claim C3: permutation and monotone arrivals of the per-date builder -/

/-- The route loop visits exactly the remaining appointments, in order. -/
theorem calculateRouteLoop_map_appointment (dm : DistanceOracle)
    (hav : ℚ → ℚ → ℚ → ℚ → ℚ) :
    ∀ (rest : List GeocodedAppointment) (prevApt : GeocodedAppointment)
      (t : ℤ) (i : ℕ),
      (calculateRouteLoop dm hav prevApt t i rest).1.map (fun s => s.appointment) =
        rest := by
  intro rest
  induction rest with
  | nil => intro _ _ _; simp [calculateRouteLoop]
  | cons cur rest ih =>
    intro prevApt t i
    rw [calculateRouteLoop]
    dsimp only
    rw [List.map_cons, ih]

/-- The stops of `calculateRoute` carry exactly the ordered appointments. -/
theorem calculateRoute_map_appointment (dm : DistanceOracle)
    (hav : ℚ → ℚ → ℚ → ℚ → ℚ) (ordered : List GeocodedAppointment) :
    (calculateRoute dm hav ordered).stops.map (fun s => s.appointment) = ordered := by
  match ordered with
  | [] => simp [calculateRoute]
  | firstApt :: rest =>
    rw [calculateRoute]
    dsimp only
    rw [List.map_cons, calculateRouteLoop_map_appointment]

/-- The first component of the insertion-position fold stays within the
allowed positions. -/
theorem foldl_fst_le {β : Type} (step : ℕ × β → ℕ → ℕ × β) (n : ℕ)
    (hstep : ∀ acc p, acc.1 ≤ n → p ≤ n → (step acc p).1 ≤ n) :
    ∀ (l : List ℕ) (acc : ℕ × β), (∀ p ∈ l, p ≤ n) → acc.1 ≤ n →
      (l.foldl step acc).1 ≤ n := by
  intro l
  induction l with
  | nil => intro acc _ h; exact h
  | cons p rest ih =>
    intro acc hl hacc
    exact ih (step acc p) (fun q hq => hl q (List.mem_cons_of_mem _ hq))
      (hstep acc p hacc (hl p (List.mem_cons_self _ _)))

/-- Inserting a flexible appointment produces a permutation of consing it. -/
theorem insertFlexibleAppointment_perm (dm : DistanceOracle)
    (hav : ℚ → ℚ → ℚ → ℚ → ℚ) (f : GeocodedAppointment)
    (l : List GeocodedAppointment) :
    (insertFlexibleAppointment dm hav f l).Perm (f :: l) := by
  unfold insertFlexibleAppointment
  by_cases h : l = []
  · subst h; simp
  · rw [if_neg h]
    dsimp only
    apply List.perm_insertIdx
    apply foldl_fst_le _ l.length
    · intro acc p hacc hp
      dsimp only
      cases hacc2 : acc.2 with
      | none => exact hp
      | some bestCost =>
        dsimp only
        split_ifs with hlt
        · exact hp
        · exact hacc
    · intro p hp
      have := List.mem_range.mp hp
      omega
    · exact Nat.zero_le _

/-- Folding the insertion over the flexible appointments permutes their
concatenation with the base order. -/
theorem foldl_insert_perm (dm : DistanceOracle) (hav : ℚ → ℚ → ℚ → ℚ → ℚ) :
    ∀ (fs base : List GeocodedAppointment),
      (fs.foldl (fun acc f => insertFlexibleAppointment dm hav f acc) base).Perm
        (fs ++ base) := by
  intro fs
  induction fs with
  | nil => intro base; simp
  | cons f rest ih =>
    intro base
    have h1 := ih (insertFlexibleAppointment dm hav f base)
    have h2 : (rest ++ insertFlexibleAppointment dm hav f base).Perm
        (rest ++ f :: base) :=
      List.Perm.append_left rest (insertFlexibleAppointment_perm dm hav f base)
    have h3 : (rest ++ f :: base).Perm (f :: (rest ++ base)) := List.perm_middle
    exact ((h1.trans h2).trans h3)

/-- Travel legs are never negative when the oracle reports nonnegative
durations and the geodesic distance is nonnegative. -/
theorem routeTravel_nonneg (dm : DistanceOracle) (hav : ℚ → ℚ → ℚ → ℚ → ℚ)
    (hdm : ∀ p q r, dm p q = some r → 0 ≤ r.duration)
    (hhav : ∀ a b c d, 0 ≤ hav a b c d)
    (prevApt currentApt : GeocodedAppointment) :
    0 ≤ (routeTravel dm hav prevApt currentApt).1 := by
  unfold routeTravel
  cases hcall : dm (prevApt.latitude, prevApt.longitude)
      (currentApt.latitude, currentApt.longitude) with
  | some r => exact hdm _ _ r hcall
  | none =>
    dsimp only
    unfold jsRound
    rw [Int.le_floor]
    have := hhav prevApt.latitude prevApt.longitude currentApt.latitude
      currentApt.longitude
    push_cast
    nlinarith

/-- Arrival times along the route loop grow by at least the previous visit
duration, and the first arrival is at least the incoming time plus the
previous appointment's duration. -/
theorem calculateRouteLoop_chain (dm : DistanceOracle) (hav : ℚ → ℚ → ℚ → ℚ → ℚ)
    (hdm : ∀ p q r, dm p q = some r → 0 ≤ r.duration)
    (hhav : ∀ a b c d, 0 ≤ hav a b c d) :
    ∀ (rest : List GeocodedAppointment) (prevApt : GeocodedAppointment)
      (t : ℤ) (i : ℕ),
      List.Chain'
        (fun s1 s2 => s1.arrivalTime + s1.appointment.visitDurationMinutes ≤
          s2.arrivalTime)
        (calculateRouteLoop dm hav prevApt t i rest).1
      ∧ ∀ s ∈ ((calculateRouteLoop dm hav prevApt t i rest).1).head?,
          t + prevApt.visitDurationMinutes ≤ s.arrivalTime := by
  intro rest
  induction rest with
  | nil =>
    intro prevApt t i
    constructor
    · simp [calculateRouteLoop]
    · intro s hs
      simp [calculateRouteLoop] at hs
  | cons cur rest ih =>
    intro prevApt t i
    rw [calculateRouteLoop]
    dsimp only
    have htravel := routeTravel_nonneg dm hav hdm hhav prevApt cur
    have ihcur := ih cur (t + prevApt.visitDurationMinutes +
      (routeTravel dm hav prevApt cur).1) (i + 1)
    constructor
    · rw [List.chain'_cons']
      refine ⟨?_, ihcur.1⟩
      intro s hs
      have := ihcur.2 s hs
      dsimp only at this ⊢
      omega
    · intro s hs
      simp only [List.head?_cons, Option.mem_def, Option.some.injEq] at hs
      subst hs
      dsimp only
      omega

/-- Arrival times along `calculateRoute` grow by at least the visit
duration of the previous stop. -/
theorem calculateRoute_chain (dm : DistanceOracle) (hav : ℚ → ℚ → ℚ → ℚ → ℚ)
    (hdm : ∀ p q r, dm p q = some r → 0 ≤ r.duration)
    (hhav : ∀ a b c d, 0 ≤ hav a b c d) (ordered : List GeocodedAppointment) :
    List.Chain'
      (fun s1 s2 => s1.arrivalTime + s1.appointment.visitDurationMinutes ≤
        s2.arrivalTime)
      (calculateRoute dm hav ordered).stops := by
  match ordered with
  | [] => simp [calculateRoute]
  | firstApt :: rest =>
    rw [calculateRoute]
    dsimp only
    rw [List.chain'_cons']
    have h := calculateRouteLoop_chain dm hav hdm hhav rest firstApt
      (match firstApt.startTime, isInflexible firstApt with
       | some t, true => t
       | _, _ => 9 * 60) 1
    refine ⟨?_, h.1⟩
    intro s hs
    have := h.2 s hs
    dsimp only at this ⊢
    omega

/-- C3: for a nonempty appointment set (and an oracle with nonnegative
durations, as travel times are), the per-date Route Builder `optimizeDay`
returns stops that are a permutation of the input appointments, each exactly
once, with each arrival at least the previous arrival plus the previous
visit duration. -/
theorem optimizeDay_perm_and_monotone (dm : DistanceOracle)
    (hav : ℚ → ℚ → ℚ → ℚ → ℚ) (appointments : List GeocodedAppointment)
    (_hne : appointments ≠ [])
    (hdm : ∀ p q r, dm p q = some r → 0 ≤ r.duration)
    (hhav : ∀ a b c d, 0 ≤ hav a b c d) :
    ((optimizeDay dm hav appointments).stops.map (fun s => s.appointment)).Perm
      appointments
    ∧ ∀ (i : ℕ) (h : i + 1 < (optimizeDay dm hav appointments).stops.length),
        ((optimizeDay dm hav appointments).stops.get
            ⟨i, by omega⟩).arrivalTime +
          ((optimizeDay dm hav appointments).stops.get
            ⟨i, by omega⟩).appointment.visitDurationMinutes ≤
        ((optimizeDay dm hav appointments).stops.get ⟨i + 1, h⟩).arrivalTime := by
  constructor
  · unfold optimizeDay optimizeInflexiblePositions
    dsimp only
    rw [calculateRoute_map_appointment]
    have h1 := foldl_insert_perm dm hav
      (appointments.filter (fun a => ! isInflexible a))
      ((appointments.filter isInflexible).mergeSort inflexibleLE)
    have h2 : ((appointments.filter (fun a => ! isInflexible a)) ++
        ((appointments.filter isInflexible).mergeSort inflexibleLE)).Perm
        ((appointments.filter (fun a => ! isInflexible a)) ++
          appointments.filter isInflexible) :=
      List.Perm.append_left _ (List.mergeSort_perm _ _)
    have h3 : ((appointments.filter (fun a => ! isInflexible a)) ++
        appointments.filter isInflexible).Perm
        (appointments.filter isInflexible ++
          appointments.filter (fun a => ! isInflexible a)) :=
      List.perm_append_comm
    have h4 := List.filter_append_perm isInflexible appointments
    exact ((h1.trans h2).trans h3).trans h4
  · intro i h
    have hchain : List.Chain'
        (fun s1 s2 => s1.arrivalTime + s1.appointment.visitDurationMinutes ≤
          s2.arrivalTime)
        (optimizeDay dm hav appointments).stops := by
      unfold optimizeDay optimizeInflexiblePositions
      dsimp only
      exact calculateRoute_chain dm hav hdm hhav _
    exact List.chain'_iff_get.mp hchain i (by omega)

/-! ## Claim C1: the grace-period invariant of accepted routes -/

/-- `getArrivalStatus` reports `on_time` exactly when the arrival is within
the grace period of the preferred time. -/
theorem getArrivalStatus_on_time_iff (a p g : ℤ) :
    getArrivalStatus a p g = ArrivalStatus.on_time ↔ timeDifference a p ≤ g := by
  unfold getArrivalStatus
  split_ifs with h1 h2 <;> simp [h1]

/-- Each loop stop with a preferred time has its status computed from its own
arrival time and that preferred time. -/
theorem calculateRouteLoop_status (dm : DistanceOracle)
    (hav : ℚ → ℚ → ℚ → ℚ → ℚ) :
    ∀ (rest : List GeocodedAppointment) (prevApt : GeocodedAppointment)
      (t : ℤ) (i : ℕ) (s : VisitStop),
      s ∈ (calculateRouteLoop dm hav prevApt t i rest).1 →
      ∀ p, s.appointment.startTime = some p →
      s.status = getArrivalStatus s.arrivalTime p GRACE_PERIOD_MINUTES := by
  intro rest
  induction rest with
  | nil =>
    intro prevApt t i s hs
    simp [calculateRouteLoop] at hs
  | cons cur rest ih =>
    intro prevApt t i s hs p hp
    rw [calculateRouteLoop] at hs
    dsimp only at hs
    rcases List.mem_cons.mp hs with h | h
    · subst h
      simp only at hp
      simp only [hp]
    · exact ih cur _ (i + 1) s h p hp

/-- Each stop of `calculateRoute` with a preferred time has its status
computed from its own arrival time and that preferred time. -/
theorem calculateRoute_status (dm : DistanceOracle) (hav : ℚ → ℚ → ℚ → ℚ → ℚ)
    (ordered : List GeocodedAppointment) (s : VisitStop)
    (hs : s ∈ (calculateRoute dm hav ordered).stops)
    (p : ℤ) (hp : s.appointment.startTime = some p) :
    s.status = getArrivalStatus s.arrivalTime p GRACE_PERIOD_MINUTES := by
  match ordered with
  | [] => simp [calculateRoute] at hs
  | firstApt :: rest =>
    rw [calculateRoute] at hs
    dsimp only at hs
    rcases List.mem_cons.mp hs with h | h
    · subst h
      simp only at hp
      simp only [hp]
    · exact calculateRouteLoop_status dm hav rest firstApt _ 1 s h p hp

/-- Each stop of `optimizeRoute` with a preferred time has its status
computed from its own arrival time and that preferred time. -/
theorem optimizeRoute_status (dm : DistanceOracle) (hav : ℚ → ℚ → ℚ → ℚ → ℚ)
    (appointments : List GeocodedAppointment) (s : VisitStop)
    (hs : s ∈ (optimizeRoute dm hav appointments).stops)
    (p : ℤ) (hp : s.appointment.startTime = some p) :
    s.status = getArrivalStatus s.arrivalTime p GRACE_PERIOD_MINUTES := by
  match appointments with
  | [] => simp [optimizeRoute] at hs
  | first :: restApts =>
    rw [optimizeRoute] at hs
    dsimp only at hs
    by_cases hc : (canOptimizeRoute hav (first :: restApts)).canOptimize = false
    · simp [hc] at hs
    · rw [if_neg hc] at hs
      dsimp only at hs
      rcases List.mem_flatMap.mp hs with ⟨r, hr, hsr⟩
      rcases List.mem_map.mp hr with ⟨g, _, hgr⟩
      subst hgr
      have hday : s ∈ (calculateRoute dm hav
          (optimizeInflexiblePositions
            ((g.2.filter (fun a => ! isInflexible a)).foldl
              (fun acc f => insertFlexibleAppointment dm hav f acc)
              ((g.2.filter isInflexible).mergeSort inflexibleLE))
            ((g.2.filter isInflexible).mergeSort inflexibleLE))).stops := by
        simpa [optimizeDay] using hsr
      exact calculateRoute_status dm hav _ s hday p hp

/-- C1 (amended): `optimizeRoute` does not guarantee the grace period for
inflexible appointments, but it is never silent about a deviation: every stop
with a preferred start time (in particular every inflexible one) is reported
`on_time` exactly when its arrival is within the grace period of that time,
and `early`/`late` otherwise. -/
theorem optimizeRoute_grace_reported (dm : DistanceOracle)
    (hav : ℚ → ℚ → ℚ → ℚ → ℚ) (appointments : List GeocodedAppointment)
    (s : VisitStop) (p : ℤ)
    (hs : s ∈ (optimizeRoute dm hav appointments).stops)
    (hp : s.appointment.startTime = some p) :
    s.status = ArrivalStatus.on_time ↔
      timeDifference s.arrivalTime p ≤ GRACE_PERIOD_MINUTES := by
  rw [optimizeRoute_status dm hav appointments s hs p hp]
  exact getArrivalStatus_on_time_iff _ _ _

/-- A distance oracle that always reports the empty result, so every call
site takes the geodesic fallback. -/
def cxDm : DistanceOracle := fun _ _ => none

/-- A geodesic function reporting zero distance everywhere (all appointments
at the same location). -/
def cxHav : ℚ → ℚ → ℚ → ℚ → ℚ := fun _ _ _ _ => 0

/-- An inflexible appointment at 10:00 (600 minutes) for 30 minutes. -/
def c1Inflexible : GeocodedAppointment :=
  { id := "a", appName := "Anchor", visitDurationMinutes := 30, startTime := some 600
    date := "2024-01-15", flexibility := Flexibility.inflexible
    latitude := 1, longitude := 1 }

/-- A flexible four-hour appointment at the same location. -/
def c1Flexible : GeocodedAppointment :=
  { id := "f", appName := "Filler", visitDurationMinutes := 240, startTime := none
    date := "2024-01-15", flexibility := Flexibility.flexible
    latitude := 1, longitude := 1 }

/-- The first stop of the two-appointment evaluation: the flexible filler,
seated at the 09:00 day start. -/
def c1StopFlexible : VisitStop :=
  { appointment := c1Flexible, order := 1, arrivalTime := 540
    travelTimeFromPrevious := 0, distanceFromPrevious := 0
    status := ArrivalStatus.on_time, minutesFromPreferred := 0 }

/-- The second stop of the two-appointment evaluation: the inflexible anchor,
reached at 13:00, 180 minutes after its 10:00 preferred time. -/
def c1StopInflexible : VisitStop :=
  { appointment := c1Inflexible, order := 2, arrivalTime := 780
    travelTimeFromPrevious := 0, distanceFromPrevious := 0
    status := ArrivalStatus.late, minutesFromPreferred := 180 }

/-- The inflexible part of the two-appointment example. -/
theorem c1_filter_inflexible :
    [c1Inflexible, c1Flexible].filter isInflexible = [c1Inflexible] := rfl

/-- The flexible part of the two-appointment example. -/
theorem c1_filter_flexible :
    [c1Inflexible, c1Flexible].filter (fun a => ! isInflexible a) = [c1Flexible] := rfl

/-- The two-appointment example forms a single date group. -/
theorem c1_groups :
    groupAppointmentsByDate [c1Inflexible, c1Flexible] =
      [("2024-01-15", [c1Inflexible, c1Flexible])] := rfl

/-- The example passes the pre-optimisation feasibility check (one inflexible
appointment, no pairs to flag). -/
theorem c1_feasibility :
    checkScheduleFeasibility cxHav [c1Inflexible, c1Flexible] = [] := by
  simp [checkScheduleFeasibility, c1_groups, c1_filter_inflexible, adjacentPairs]

/-- The example is accepted by `canOptimizeRoute`. -/
theorem c1_canOptimize :
    canOptimizeRoute cxHav [c1Inflexible, c1Flexible] =
      { canOptimize := true, reason := CanOptimizeReason.ok 2 1 1 } := by
  unfold canOptimizeRoute
  rw [c1_filter_inflexible, c1_filter_flexible, c1_feasibility]
  norm_num

/-- With all appointments at one location, the flexible filler is inserted at
the front (first position on an exact cost tie). -/
theorem c1_insert :
    insertFlexibleAppointment cxDm cxHav c1Flexible [c1Inflexible] =
      [c1Flexible, c1Inflexible] := by
  norm_num [insertFlexibleAppointment, calculateRouteCost, cxDm, cxHav,
    List.range_succ, List.insertIdx]

/-- The timed itinerary of the order `[filler, anchor]`: the filler starts at
09:00, the anchor is reached at 13:00, 180 minutes late. -/
theorem c1_route :
    calculateRoute cxDm cxHav [c1Flexible, c1Inflexible] =
      { stops := [c1StopFlexible, c1StopInflexible], totalDistance := 0
        totalDriveTime := 0, totalVisitTime := 270 } := by
  norm_num [calculateRoute, calculateRouteLoop, routeTravel, cxDm, cxHav,
    getArrivalStatus, timeDifference, jsRound, GRACE_PERIOD_MINUTES,
    c1Flexible, c1Inflexible, c1StopFlexible, c1StopInflexible, isInflexible]

/-- The per-day optimisation of the example. -/
theorem c1_day :
    optimizeDay cxDm cxHav [c1Inflexible, c1Flexible] =
      { stops := [c1StopFlexible, c1StopInflexible], totalDistance := 0
        totalDriveTime := 0, totalVisitTime := 270, warnings := [] } := by
  unfold optimizeDay
  rw [c1_filter_inflexible, c1_filter_flexible]
  norm_num [optimizeInflexiblePositions, c1_insert, c1_route]

/-- Evaluation of the optimiser on the two-appointment day: it accepts the
schedule and seats the flexible filler first, pushing the inflexible anchor
to 13:00. -/
theorem optimizeRoute_c1_eval :
    optimizeRoute cxDm cxHav [c1Inflexible, c1Flexible] =
      { stops := [c1StopFlexible, c1StopInflexible], totalDistance := 0
        totalDriveTime := 0, totalVisitTime := 270, routeDate := "2024-01-15"
        success := true, error := none, warnings := [] } := by
  rw [optimizeRoute, c1_canOptimize]
  norm_num [c1_groups, c1_day]
  rfl

/-- Counterexample to C1 as stated: the two-appointment schedule above is
returned with `success = true`, yet its inflexible stop arrives 180 minutes
after its preferred start time — far outside the 15-minute grace period (the
deviation is reported as status `late`, but the route is still accepted). -/
theorem optimizeRoute_grace_counterexample :
    (optimizeRoute cxDm cxHav [c1Inflexible, c1Flexible]).success = true ∧
    (optimizeRoute cxDm cxHav [c1Inflexible, c1Flexible]).stops.map
      (fun s => (s.appointment.flexibility, s.status, s.minutesFromPreferred)) =
      [(Flexibility.flexible, ArrivalStatus.on_time, 0),
       (Flexibility.inflexible, ArrivalStatus.late, 180)] := by
  rw [optimizeRoute_c1_eval]
  constructor
  · rfl
  · simp [c1StopFlexible, c1StopInflexible, c1Flexible, c1Inflexible]

/-- A placeholder stop for `getD`/`headD` defaults in witness statements. -/
def dummyVisitStop : VisitStop :=
  { appointment := c1Flexible, order := 0, arrivalTime := 0
    travelTimeFromPrevious := 0, distanceFromPrevious := 0
    status := ArrivalStatus.on_time, minutesFromPreferred := 0 }

/-- Witness for the amended C1 at the concrete late inflexible stop of the
evaluated schedule. -/
theorem optimizeRoute_grace_reported_witness :
    ((optimizeRoute cxDm cxHav [c1Inflexible, c1Flexible]).stops.getD 1
        dummyVisitStop).status = ArrivalStatus.on_time ↔
      timeDifference ((optimizeRoute cxDm cxHav
        [c1Inflexible, c1Flexible]).stops.getD 1 dummyVisitStop).arrivalTime 600 ≤
        GRACE_PERIOD_MINUTES :=
  optimizeRoute_grace_reported cxDm cxHav [c1Inflexible, c1Flexible] _ 600
    (by rw [optimizeRoute_c1_eval]; simp)
    (by rw [optimizeRoute_c1_eval]; simp [c1StopInflexible, c1Inflexible])

/-- Witness for C10 at the concrete flexible stop of the evaluated
schedule. -/
theorem optimizeRoute_flexible_on_time_witness :
    ((optimizeRoute cxDm cxHav [c1Inflexible, c1Flexible]).stops.headD
        dummyVisitStop).status = ArrivalStatus.on_time ∧
      ((optimizeRoute cxDm cxHav [c1Inflexible, c1Flexible]).stops.headD
        dummyVisitStop).minutesFromPreferred = 0 :=
  optimizeRoute_flexible_on_time cxDm cxHav [c1Inflexible, c1Flexible] _
    (by rw [optimizeRoute_c1_eval]; simp)
    (by rw [optimizeRoute_c1_eval]; simp [c1StopFlexible, c1Flexible])

/-- Witness for C3: the per-date builder on the two-appointment example
returns a permutation of its input (the monotone-arrival part of the claim is
instantiated by the same theorem). -/
theorem optimizeDay_perm_and_monotone_witness :
    ((optimizeDay cxDm cxHav [c1Inflexible, c1Flexible]).stops.map
      (fun s => s.appointment)).Perm [c1Inflexible, c1Flexible] :=
  (optimizeDay_perm_and_monotone cxDm cxHav [c1Inflexible, c1Flexible]
    (by simp)
    (fun p q r h => by simp [cxDm] at h)
    (fun a b c d => by simp [cxHav])).1

/-! ## Claim C8: the reordering simulator -/

/-- The single reasoning line of a reordering solution (source template
strings over the list lengths). -/
def reorderingReason (isFeasible : Bool) (reorderedLen conflictsLen : ℕ) : String :=
  if isFeasible then
    "Successfully reordered " ++ toString reorderedLen ++
      " appointments with no conflicts"
  else
    "Attempted reordering but " ++ toString conflictsLen ++ " conflicts remain"

/-- `createReorderingSolution` from `reorderer.ts`.  A change is recorded for
each appointment whose index moved; `findIdx` stands for the JS `findIndex`
(the not-found case is unreachable because the reordering is a permutation of
the original).  `successRate` and `statistics` are overwritten later by
`simulateReordering`. -/
def createReorderingSolution (reordered original : List GeocodedAppointment)
    (conflicts : List SchedulingConflict) (scenariosTested : ℕ)
    (isFeasible : Bool) : Solution :=
  let changes : List ScheduleChange :=
    reordered.enum.filterMap (fun p =>
      let index := p.1
      let apt := p.2
      let origIndex := original.findIdx (fun a => a.id == apt.id)
      if origIndex ≠ index then
        some { type := ChangeType.reorder
               appointmentId := apt.id
               appointmentName := apt.appName
               originalTime := some ((index : ℤ) * 30)
               proposedTime := some ((index : ℤ) * 30)
               reason := "Reordered to resolve scheduling conflict"
               impactMinutes := (((index : ℤ) - (origIndex : ℤ)).natAbs : ℚ) * 30 }
      else none)
  { changes := changes
    successRate := 0
    impactScore := 0
    feasibility := if isFeasible then Feasibility.feasible else Feasibility.infeasible
    reasoning := [reorderingReason isFeasible reordered.length conflicts.length]
    statistics := some
      { totalScenariosTested := scenariosTested
        feasibleScenarios := if isFeasible then 1 else 0
        bestScenarioGapMinutes := 0
        worstScenarioGapMinutes := 0
        averageGapMinutes := 0
        reorderingsTested := 1
        buffersTested := 0 } }

/-- The mutable counters of the `simulateReordering` loops. -/
structure ReorderScanState where
  solutions : List Solution
  scenariosTested : ℕ
  feasibleScenarios : ℕ
deriving DecidableEq, Repr

/-- The inner loop of `simulateReordering` over one date's reorderings: each
iteration runs while the global counter is below the cap, tests the
reordering for residual conflicts and pushes one solution. -/
def reorderScanDay (maxReorderingScenarios : ℕ)
    (dayAppointments : List GeocodedAppointment) :
    List (List GeocodedAppointment) → ReorderScanState → ReorderScanState
  | [], st => st
  | reordered :: restReorderings, st =>
    if st.scenariosTested < maxReorderingScenarios then
      let conflicts := findAllConflicts reordered
      let isFeasible := conflicts = []
      let tested := st.scenariosTested + 1
      let solution := createReorderingSolution reordered dayAppointments conflicts
        tested (decide isFeasible)
      reorderScanDay maxReorderingScenarios dayAppointments restReorderings
        { solutions := st.solutions ++ [solution]
          scenariosTested := tested
          feasibleScenarios := st.feasibleScenarios + (if isFeasible then 1 else 0) }
    else st

/-- The outer loop of `simulateReordering` over the date groups: dates with
fewer than two appointments or no flexible appointment are skipped. -/
def reorderScan (maxReorderingScenarios : ℕ) :
    List (String × List GeocodedAppointment) → ReorderScanState → ReorderScanState
  | [], st => st
  | g :: rest, st =>
    let dayAppointments := g.2
    let st2 :=
      if dayAppointments.length < 2 then st
      else if (dayAppointments.filter (fun a => ! isInflexible a)).length = 0 then st
      else reorderScanDay maxReorderingScenarios dayAppointments
        (generateReorderings dayAppointments) st
    reorderScan maxReorderingScenarios rest st2

/-- The scan over all dates from the empty initial state. -/
def reorderScanResult (appointments : List GeocodedAppointment)
    (maxReorderingScenarios : ℕ) : ReorderScanState :=
  reorderScan maxReorderingScenarios (groupAppointmentsByDate appointments)
    { solutions := [], scenariosTested := 0, feasibleScenarios := 0 }

/-- The best-gap statistic of the solutions these loops create (their
statistics are always present; the source reads the field directly). -/
def statBestGap (s : Solution) : ℚ :=
  match s.statistics with
  | some st => st.bestScenarioGapMinutes
  | none => 0

/-- The worst-gap statistic, read like `statBestGap`. -/
def statWorstGap (s : Solution) : ℚ :=
  match s.statistics with
  | some st => st.worstScenarioGapMinutes
  | none => 0

/-- The average-gap statistic, read like `statBestGap`. -/
def statAverageGap (s : Solution) : ℚ :=
  match s.statistics with
  | some st => st.averageGapMinutes
  | none => 0

/-- `calculateBestGap` from `reorderer.ts`: the maximum of the positive
best gaps, 0 when none. -/
def calculateBestGap (solutions : List Solution) : ℚ :=
  let gaps := (solutions.map statBestGap).filter (fun g => decide (g > 0))
  match gaps with
  | [] => 0
  | g :: rest => rest.foldl max g

/-- `calculateWorstGap` from `reorderer.ts`: the minimum of the positive
worst gaps, 0 when none. -/
def calculateWorstGap (solutions : List Solution) : ℚ :=
  let gaps := (solutions.map statWorstGap).filter (fun g => decide (g > 0))
  match gaps with
  | [] => 0
  | g :: rest => rest.foldl min g

/-- `calculateAverageGap` from `reorderer.ts`: the mean of the positive
average gaps, 0 when none. -/
def calculateAverageGap (solutions : List Solution) : ℚ :=
  let gaps := (solutions.map statAverageGap).filter (fun g => decide (g > 0))
  if gaps = [] then 0 else gaps.sum / gaps.length

/-- The aggregate success rate stamped onto every returned solution. -/
def reorderSuccessRate (appointments : List GeocodedAppointment)
    (maxReorderingScenarios : ℕ) : ℚ :=
  let scan := reorderScanResult appointments maxReorderingScenarios
  if scan.scenariosTested > 0 then
    (scan.feasibleScenarios : ℚ) / (scan.scenariosTested : ℚ)
  else 0

/-- The aggregate `SimulationStats` stamped onto every returned solution. -/
def reorderFinalStats (appointments : List GeocodedAppointment)
    (maxReorderingScenarios : ℕ) : SimulationStats :=
  let scan := reorderScanResult appointments maxReorderingScenarios
  { totalScenariosTested := scan.scenariosTested
    feasibleScenarios := scan.feasibleScenarios
    bestScenarioGapMinutes := calculateBestGap scan.solutions
    worstScenarioGapMinutes := calculateWorstGap scan.solutions
    averageGapMinutes := calculateAverageGap scan.solutions
    reorderingsTested := scan.scenariosTested
    buffersTested := 0 }

/-- `simulateReordering` from `reorderer.ts`: scan all date groups under the
global cap, stamp every solution with the aggregate success rate and
statistics, then sort ascending by impact score.  (The source scores with
`calculateImpactScore(solution)`, i.e. with the default configuration, even
when a `config` argument was supplied; the unused argument is kept.) -/
def simulateReordering (appointments : List GeocodedAppointment)
    (maxReorderingScenarios : ℕ) (_config : BufferConfiguration) : List Solution :=
  let scan := reorderScanResult appointments maxReorderingScenarios
  let successRate := reorderSuccessRate appointments maxReorderingScenarios
  let finalStats := reorderFinalStats appointments maxReorderingScenarios
  let stamped := scan.solutions.map (fun s =>
    { s with successRate := successRate, statistics := some finalStats })
  ((stamped.map (fun s => (s, calculateImpactScore s DEFAULT_BUFFER_CONFIG))).mergeSort
    (fun a b => a.2 ≤ b.2)).map (fun p => p.1)

/-- The day loop pushes one solution per counted scenario and never exceeds
the cap. -/
theorem reorderScanDay_invariant (maxReorderingScenarios : ℕ)
    (dayAppointments : List GeocodedAppointment) :
    ∀ (reorderings : List (List GeocodedAppointment)) (st : ReorderScanState),
      st.solutions.length = st.scenariosTested →
      st.scenariosTested ≤ maxReorderingScenarios →
      (reorderScanDay maxReorderingScenarios dayAppointments reorderings st).solutions.length =
        (reorderScanDay maxReorderingScenarios dayAppointments reorderings st).scenariosTested ∧
      (reorderScanDay maxReorderingScenarios dayAppointments reorderings st).scenariosTested ≤
        maxReorderingScenarios := by
  intro reorderings
  induction reorderings with
  | nil => intro st h1 h2; exact ⟨h1, h2⟩
  | cons r rest ih =>
    intro st h1 h2
    rw [reorderScanDay]
    dsimp only
    by_cases hlt : st.scenariosTested < maxReorderingScenarios
    · rw [if_pos hlt]
      apply ih
      · simp [h1]
      · dsimp only
        omega
    · rw [if_neg hlt]
      exact ⟨h1, h2⟩

/-- The date loop keeps the same invariant. -/
theorem reorderScan_invariant (maxReorderingScenarios : ℕ) :
    ∀ (groups : List (String × List GeocodedAppointment)) (st : ReorderScanState),
      st.solutions.length = st.scenariosTested →
      st.scenariosTested ≤ maxReorderingScenarios →
      (reorderScan maxReorderingScenarios groups st).solutions.length =
        (reorderScan maxReorderingScenarios groups st).scenariosTested ∧
      (reorderScan maxReorderingScenarios groups st).scenariosTested ≤
        maxReorderingScenarios := by
  intro groups
  induction groups with
  | nil => intro st h1 h2; exact ⟨h1, h2⟩
  | cons g rest ih =>
    intro st h1 h2
    rw [reorderScan]
    split_ifs with hlen hflex
    · exact ih st h1 h2
    · exact ih st h1 h2
    · have hday := reorderScanDay_invariant maxReorderingScenarios g.2
        (generateReorderings g.2) st h1 h2
      exact ih _ hday.1 hday.2

/-- C8: `simulateReordering` returns at most `maxReorderingScenarios`
solutions across all dates, and every returned solution carries the same
aggregate success rate (`feasibleScenarios / scenariosTested`) and the same
aggregate statistics record. -/
theorem simulateReordering_spec (appointments : List GeocodedAppointment)
    (maxReorderingScenarios : ℕ) (config : BufferConfiguration) (s : Solution)
    (hs : s ∈ simulateReordering appointments maxReorderingScenarios config) :
    (simulateReordering appointments maxReorderingScenarios config).length ≤
      maxReorderingScenarios ∧
    s.successRate = reorderSuccessRate appointments maxReorderingScenarios ∧
    s.statistics = some (reorderFinalStats appointments maxReorderingScenarios) := by
  have hinv := reorderScan_invariant maxReorderingScenarios
    (groupAppointmentsByDate appointments)
    { solutions := [], scenariosTested := 0, feasibleScenarios := 0 }
    rfl (Nat.zero_le _)
  refine ⟨?_, ?_⟩
  · unfold simulateReordering
    rw [List.length_map, (List.mergeSort_perm _ _).length_eq, List.length_map,
      List.length_map]
    unfold reorderScanResult at hinv ⊢
    omega
  · unfold simulateReordering at hs
    rcases List.mem_map.mp hs with ⟨p, hp, hps⟩
    rw [(List.mergeSort_perm _ _).mem_iff] at hp
    rcases List.mem_map.mp hp with ⟨s0, hs0, hs0p⟩
    rcases List.mem_map.mp hs0 with ⟨s1, _, hs1s⟩
    subst hps
    subst hs0p
    subst hs1s
    exact ⟨rfl, rfl⟩

/-- The C8 witness schedule: one inflexible and one flexible appointment on
the same date, generating exactly one reordering scenario. -/
def c8Ex : List GeocodedAppointment := [c2Apt1, c6Flex1]

/-- The aggregate statistics of that single-scenario run. -/
def c8Stats : SimulationStats :=
  { totalScenariosTested := 1, feasibleScenarios := 1, bestScenarioGapMinutes := 0
    worstScenarioGapMinutes := 0, averageGapMinutes := 0, reorderingsTested := 1
    buffersTested := 0 }

/-- The single solution of that run after stamping. -/
def c8Solution : Solution :=
  { changes := [], successRate := 1, impactScore := 0
    feasibility := Feasibility.feasible
    reasoning := [reorderingReason true 2 0], statistics := some c8Stats }

/-- The scan of the witness schedule tests its one reordering and finds it
feasible. -/
theorem c8_scan_eval :
    reorderScanResult c8Ex 50 =
      { solutions := [createReorderingSolution [c2Apt1, c6Flex1] [c2Apt1, c6Flex1] [] 1 true]
        scenariosTested := 1, feasibleScenarios := 1 } := rfl

/-- The untouched fields of the witness solution. -/
theorem c8_solution_eval :
    createReorderingSolution [c2Apt1, c6Flex1] [c2Apt1, c6Flex1] [] 1 true =
      { changes := [], successRate := 0, impactScore := 0
        feasibility := Feasibility.feasible
        reasoning := [reorderingReason true 2 0], statistics := some c8Stats } := rfl

/-- The aggregate success rate of the witness run is 1. -/
theorem c8_rate_eval : reorderSuccessRate c8Ex 50 = 1 := by
  unfold reorderSuccessRate
  rw [c8_scan_eval]
  norm_num

/-- The aggregate statistics of the witness run. -/
theorem c8_stats_eval : reorderFinalStats c8Ex 50 = c8Stats := by
  unfold reorderFinalStats
  rw [c8_scan_eval]
  rfl

/-- Full evaluation of `simulateReordering` on the witness schedule. -/
theorem c8_eval : simulateReordering c8Ex 50 DEFAULT_BUFFER_CONFIG = [c8Solution] := by
  unfold simulateReordering
  dsimp only
  rw [c8_scan_eval, c8_rate_eval, c8_stats_eval, c8_solution_eval]
  simp [c8Solution]

/-- Witness for C8 at the single solution of the witness schedule. -/
theorem simulateReordering_spec_witness :
    (simulateReordering c8Ex 50 DEFAULT_BUFFER_CONFIG).length ≤ 50 ∧
    c8Solution.successRate = reorderSuccessRate c8Ex 50 ∧
    c8Solution.statistics = some (reorderFinalStats c8Ex 50) :=
  simulateReordering_spec c8Ex 50 DEFAULT_BUFFER_CONFIG c8Solution
    (by rw [c8_eval]; simp)

/-! ## Claim C9: the orchestrator returns nothing when there is no conflict -/

/-- `ConflictResolution` from `types.ts`. -/
structure ConflictResolution where
  conflict : SchedulingConflict
  solutions : List Solution
  recommendedSolution : Option Solution
deriving DecidableEq, Repr

/-- The per-conflict loop of `runConflictSimulations`: before each conflict
the elapsed wall-clock time is compared against the budget (`timeExceeded i`
models `Date.now() - startTime > timeLimitMs` before conflict `i`); once
exceeded, the remaining conflicts are dropped. -/
def conflictLoop (resolveConflict : SchedulingConflict → ConflictResolution)
    (timeExceeded : ℕ → Bool) :
    ℕ → List SchedulingConflict → List ConflictResolution
  | _, [] => []
  | i, c :: rest =>
    if timeExceeded i then []
    else resolveConflict c :: conflictLoop resolveConflict timeExceeded (i + 1) rest

/-- `runConflictSimulations` from `scheduler.ts`.  The per-conflict body
(`resolveConflict`, which invokes the three strategy simulators, attaches
explanations and ranks) and the wall clock are parameters of the embedding:
the theorem below holds for every resolver and clock, which is exactly the
sense in which no simulator is ever invoked when there are no conflicts. -/
def runConflictSimulations (resolveConflict : SchedulingConflict → ConflictResolution)
    (timeExceeded : ℕ → Bool)
    (appointments : List GeocodedAppointment) : List ConflictResolution :=
  let conflicts := findAllConflicts appointments
  if conflicts = [] then []
  else conflictLoop resolveConflict timeExceeded 0 conflicts

/-- C9: whenever `findAllConflicts` finds nothing — in particular for fully
flexible appointment sets — `runConflictSimulations` returns the empty list
at once, for every resolver and every clock (so no strategy simulator can
influence, or be invoked for, the result). -/
theorem runConflictSimulations_no_conflicts
    (resolveConflict : SchedulingConflict → ConflictResolution)
    (timeExceeded : ℕ → Bool) (appointments : List GeocodedAppointment)
    (h : findAllConflicts appointments = []) :
    runConflictSimulations resolveConflict timeExceeded appointments = [] := by
  unfold runConflictSimulations
  simp [h]

/-- A second fully flexible appointment for the C9 witness. -/
def c9Flex3 : GeocodedAppointment :=
  { id := "f3", appName := "F3", visitDurationMinutes := 90, startTime := none
    date := "2024-01-15", flexibility := Flexibility.flexible
    latitude := 3, longitude := 3 }

/-- The C9 witness set: three fully flexible appointments with no start
times. -/
def c9Ex : List GeocodedAppointment := [c6Flex1, c6Flex2, c9Flex3]

/-- Witness for C9: on the three fully flexible appointments the orchestrator
returns the empty list (for the trivial resolver and a clock that never
expires). -/
theorem runConflictSimulations_no_conflicts_witness :
    runConflictSimulations
      (fun c => { conflict := c, solutions := [], recommendedSolution := none })
      (fun _ => false) c9Ex = [] :=
  runConflictSimulations_no_conflicts _ _ c9Ex rfl

end RouteOMatic
